import Mathlib

/-!
Shallow embedding of `openxc/sources/base.py` (`BytestreamDataSource`):
the frame scanner `_parse_message`, and the ingestion loop body `run`.

Bytes are modelled as `Nat` (Python byte indexing yields ints in 0..255);
buffers as `List Nat`.  The protobuf varint reader
`google.protobuf.internal.decoder._DecodeVarint` is embedded from its
library source (64-bit mask, continuation-bit loop, `IndexError` on
reading past the end, `_DecodeError` once the shift reaches 64); both
exceptional exits are modelled as `none`.  The payload decoder
(`openxc_pb2.VehicleMessage.ParseFromString` plus the dict construction)
is not part of the sources; the run-loop semantics are parameterised over
an abstract `decode : List Nat → Option ParsedMessage`, where
`ParsedMessage` records which keys the resulting dict carries.
-/

/-- Embedding of the loop body of `_DecodeVarint` (protobuf pure-python
decoder).  `fuel` is a structural bound: the source raises once the shift
reaches 64, so starting from shift 0 at most 10 bytes are ever read and
`fuel = 10` is never exhausted.  `none` models a raised exception
(`IndexError` reading past the buffer end, or `_DecodeError`). -/
def decodeVarintLoop (buf : List Nat) : Nat → Nat → Nat → Nat → Option (Nat × Nat)
  | 0, _, _, _ => none
  | fuel + 1, pos, result, shift =>
    match buf[pos]? with
    | none => none
    | some b =>
      let result := result ||| ((b &&& 0x7f) <<< shift)
      if b &&& 0x80 == 0 then
        some (result &&& (2 ^ 64 - 1), pos + 1)
      else if 64 ≤ shift + 7 then none
      else decodeVarintLoop buf fuel (pos + 1) result (shift + 7)

/-- Embedding of `_DecodeVarint(buffer, pos)`: returns
`(message_length, new_pos)` or `none` when the library raises. -/
def decodeVarint (buf : List Nat) (pos : Nat) : Option (Nat × Nat) :=
  decodeVarintLoop buf 10 pos 0 0

/-- Embedding of Python `message_buffer.find(b"\x00")`: index of the first
zero byte, `none` standing for the `-1` of a failed search. -/
def findZero : List Nat → Option Nat
  | [] => none
  | b :: rest => if b == 0 then some 0 else (findZero rest).map (fun i => i + 1)

/-- Result of the framing part of `_parse_message` (lines computing
`message_data` and `remainder`).  `noFrame` covers both no-sentinel and
sentinel-at-the-last-byte early exits where the buffer is untouched;
`exc` is an exception escaping from `_DecodeVarint`. -/
inductive ExtractResult where
  | noFrame : ExtractResult
  | exc : ExtractResult
  | frame (message_data remainder : List Nat) : ExtractResult
deriving DecidableEq, Repr

/-- Framing part of `_parse_message`: find the sentinel, decode the varint
length prefix, slice out `message_data = buf[start : start + len]` and
`remainder = buf[start + len :]` with Python slice truncation. -/
def extractFrame (buf : List Nat) : ExtractResult :=
  match findZero buf with
  | none => ExtractResult.noFrame
  | some footer_index =>
    if footer_index + 1 < buf.length then
      match decodeVarint buf (footer_index + 1) with
      | none => ExtractResult.exc
      | some (message_length, message_start) =>
        ExtractResult.frame ((buf.drop message_start).take message_length)
          (buf.drop (message_start + message_length))
    else ExtractResult.noFrame

/-- Key-presence shape of the dict built by `_parse_message` from a
successfully parsed `VehicleMessage`: which of the keys `name`, `value`,
`id`, `data`, `bus`, `event` are present. -/
structure ParsedMessage where
  hasName : Bool
  hasValue : Bool
  hasId : Bool
  hasData : Bool
  hasBus : Bool
  hasEvent : Bool
deriving DecidableEq, Repr

/-- Shape check of `run`:
`(name in message and value in message) or (id in message and data in message)`.
The preceding `hasattr(message, iter-attribute)` test always succeeds on the
dicts `_parse_message` returns. -/
def shapeOk (m : ParsedMessage) : Bool :=
  (m.hasName && m.hasValue) || (m.hasId && m.hasData)

/-- Outcome of one `_parse_message` call: `exc` when an exception escapes,
otherwise the returned triple
`(parsed_message, remainder, len(message_data))`. -/
inductive ParseResult where
  | exc : ParseResult
  | ok (parsed_message : Option ParsedMessage) (remainder : List Nat)
      (byte_count : Nat) : ParseResult
deriving DecidableEq, Repr

/-- Embedding of `_parse_message`, parameterised over the payload decoder
`decode` (standing for `VehicleMessage.ParseFromString` plus dict
construction, which is outside the sources).  The decoder is only invoked
when `len(message_data) > 1`, exactly as in the source. -/
def parse_message (decode : List Nat → Option ParsedMessage) (buf : List Nat) :
    ParseResult :=
  match extractFrame buf with
  | ExtractResult.noFrame => ParseResult.ok none buf 0
  | ExtractResult.exc => ParseResult.exc
  | ExtractResult.frame message_data remainder =>
    if 1 < message_data.length then
      match decode message_data with
      | none => ParseResult.ok none remainder message_data.length
      | some m => ParseResult.ok (some m) remainder message_data.length
    else ParseResult.ok none remainder message_data.length

/-- Mutable state of a `BytestreamDataSource`: the accumulated
`message_buffer` of `run` and the two counters set to 0 in `__init__`. -/
structure SourceState where
  message_buffer : List Nat
  bytes_received : Nat
  corrupted_messages : Nat
deriving DecidableEq, Repr

/-- State right after `__init__` (both counters 0) at the top of `run`
(empty buffer). -/
def initialState : SourceState :=
  { message_buffer := [], bytes_received := 0, corrupted_messages := 0 }

/-- Ghost record of one consumer-callback invocation: the message, the
`data_remaining` flag passed with it, and the `byte_count` of the frame
that produced it (the payload length added to `bytes_received`). -/
structure DispatchRecord where
  message : ParsedMessage
  data_remaining : Bool
  payload_len : Nat
deriving DecidableEq, Repr

theorem extractFrame_frame_length_lt (buf md rem : List Nat)
    (h : extractFrame buf = ExtractResult.frame md rem) (hlen : 1 < md.length) :
    rem.length < buf.length := by
  unfold extractFrame at h
  split at h
  · exact absurd h (by simp)
  · split at h
    · split at h
      · exact absurd h (by simp)
      · rename_i len start heq
        rw [ExtractResult.frame.injEq] at h
        obtain ⟨hmd, hrem⟩ := h
        subst hmd hrem
        simp only [List.length_take, List.length_drop] at hlen ⊢
        omega
    · exact absurd h (by simp)

theorem parse_message_some_length_lt (decode : List Nat → Option ParsedMessage)
    (buf : List Nat) (m : ParsedMessage) (rem : List Nat) (bc : Nat)
    (h : parse_message decode buf = ParseResult.ok (some m) rem bc) :
    rem.length < buf.length := by
  unfold parse_message at h
  split at h
  · exact absurd h (by simp)
  · exact absurd h (by simp)
  · rename_i md rem' hex
    split at h
    · rename_i hlen
      split at h
      · exact absurd h (by simp)
      · rw [ParseResult.ok.injEq] at h
        obtain ⟨-, hrem, -⟩ := h
        subst hrem
        exact extractFrame_frame_length_lt buf md _ hex hlen
    · exact absurd h (by simp)

/-- Embedding of the inner `while True` loop of `run` on one buffer
snapshot: repeatedly `_parse_message`, stop (`break`) when no message or
when the shape check fails (incrementing `corrupted_messages`), otherwise
add `byte_count` to `bytes_received`, invoke the callback with
`data_remaining = len(message_buffer) > 0`, and continue.  `none` models
an exception escaping from `_parse_message` and killing the thread; the
returned list records the callback invocations in order. -/
def drainBuffer (decode : List Nat → Option ParsedMessage) (s : SourceState) :
    Option (SourceState × List DispatchRecord) :=
  match h : parse_message decode s.message_buffer with
  | ParseResult.exc => none
  | ParseResult.ok none rem _ =>
    some ({ s with message_buffer := rem }, [])
  | ParseResult.ok (some m) rem bc =>
    if shapeOk m then
      match drainBuffer decode
          { message_buffer := rem, bytes_received := s.bytes_received + bc,
            corrupted_messages := s.corrupted_messages } with
      | none => none
      | some (s'', log) =>
        some (s'', { message := m, data_remaining := decide (0 < rem.length),
                     payload_len := bc } :: log)
    else
      some ({ s with message_buffer := rem, corrupted_messages := s.corrupted_messages + 1 }, [])
termination_by s.message_buffer.length
decreasing_by
  exact parse_message_some_length_lt decode s.message_buffer m rem bc h

/-- Embedding of the outer loop of `run` for a given sequence of reads:
each cycle appends the read bytes to the buffer and drains it.  The list
ending models `_read` failing with `DataSourceError` (loop `break`s);
`none` models an uncaught exception. -/
def runCycles (decode : List Nat → Option ParsedMessage) (s : SourceState) :
    List (List Nat) → Option (SourceState × List DispatchRecord)
  | [] => some (s, [])
  | r :: rs =>
    match drainBuffer decode { s with message_buffer := s.message_buffer ++ r } with
    | none => none
    | some (s', log) =>
      match runCycles decode s' rs with
      | none => none
      | some (s'', log') => some (s'', log ++ log')

example : decodeVarint [0, 2, 7, 8, 9] 1 = some (2, 2) := by decide
example : decodeVarint [0, 0x80] 1 = none := by decide
example : extractFrame [0, 5, 1, 2] = ExtractResult.frame [1, 2] [] := by decide
example : extractFrame [0, 0x80] = ExtractResult.exc := by decide
example : extractFrame [0, 2, 9, 9, 0, 2, 8, 8] =
    ExtractResult.frame [9, 9] [0, 2, 8, 8] := by decide
example : extractFrame [0, 1, 7] = ExtractResult.frame [7] [] := by decide

/-- Modelled from the spec: a payload decoder instance standing for
`VehicleMessage.ParseFromString` raising `DecodeError` on the given bytes
(for instance `[1, 2]`, whose first tag byte has field number 0, which is
invalid).  The generated protobuf module `openxc_pb2` is not among the
sources, so concrete decoding outcomes are supplied through such
instances; all general theorems quantify over the decoder. -/
def decodeNone : List Nat → Option ParsedMessage := fun _ => none

/-- Dict with exactly the keys `name` and `value`, as built from a
translated `VehicleMessage` carrying a name and a numerical value. -/
def nvMessage : ParsedMessage :=
  { hasName := true, hasValue := true, hasId := false, hasData := false,
    hasBus := false, hasEvent := false }

/-- Dict with only the key `name`, as built from a translated
`VehicleMessage` whose value field is unset (the `name` key is always
written for non-RAW messages). -/
def nameOnlyMessage : ParsedMessage :=
  { hasName := true, hasValue := false, hasId := false, hasData := false,
    hasBus := false, hasEvent := false }

/-- Modelled from the spec: a payload decoder instance standing for a
successful `ParseFromString` of a translated message with a name and a
numerical value. -/
def decodeNV : List Nat → Option ParsedMessage := fun _ => some nvMessage

/-- Modelled from the spec: a payload decoder instance standing for a
successful `ParseFromString` of a translated message with a name but no
value, so the resulting dict fails the shape check of `run`. -/
def decodeNameOnly : List Nat → Option ParsedMessage := fun _ => some nameOnlyMessage

theorem decodeVarint_pos_lt (buf : List Nat) (pos v st : Nat)
    (h : decodeVarint buf pos = some (v, st)) : pos < buf.length := by
  by_contra hge
  rw [not_lt] at hge
  have hnone : buf[pos]? = none := List.getElem?_eq_none hge
  simp [decodeVarint, decodeVarintLoop, hnone] at h

theorem extractFrame_eq_frame (buf : List Nat) (fi len st : Nat)
    (hfi : findZero buf = some fi) (hlt : fi + 1 < buf.length)
    (hdec : decodeVarint buf (fi + 1) = some (len, st)) :
    extractFrame buf =
      ExtractResult.frame ((buf.drop st).take len) (buf.drop (st + len)) := by
  unfold extractFrame
  simp only [hfi, hdec, if_pos hlt]

theorem parse_message_frame_le_one (decode : List Nat → Option ParsedMessage)
    (buf md rem : List Nat) (hext : extractFrame buf = ExtractResult.frame md rem)
    (hlen : md.length ≤ 1) :
    parse_message decode buf = ParseResult.ok none rem md.length := by
  unfold parse_message
  simp only [hext, if_neg (by omega : ¬ 1 < md.length)]

theorem parse_message_frame_decode_none (decode : List Nat → Option ParsedMessage)
    (buf md rem : List Nat) (hext : extractFrame buf = ExtractResult.frame md rem)
    (hlen : 1 < md.length) (hdec : decode md = none) :
    parse_message decode buf = ParseResult.ok none rem md.length := by
  unfold parse_message
  simp only [hext, if_pos hlen, hdec]

theorem parse_message_frame_decode_some (decode : List Nat → Option ParsedMessage)
    (buf md rem : List Nat) (m : ParsedMessage)
    (hext : extractFrame buf = ExtractResult.frame md rem)
    (hlen : 1 < md.length) (hdec : decode md = some m) :
    parse_message decode buf = ParseResult.ok (some m) rem md.length := by
  unfold parse_message
  simp only [hext, if_pos hlen, hdec]

theorem drainBuffer_of_ok_none (decode : List Nat → Option ParsedMessage)
    (s : SourceState) (rem : List Nat) (bc : Nat)
    (hp : parse_message decode s.message_buffer = ParseResult.ok none rem bc) :
    drainBuffer decode s = some ({ s with message_buffer := rem }, []) := by
  rw [drainBuffer.eq_def]
  split
  · rename_i h; rw [hp] at h; exact absurd h (by simp)
  · rename_i rem' bc' h
    rw [hp] at h
    injection h with e1 e2 e3
    subst e2
    rfl
  · rename_i m' rem' bc' h
    rw [hp] at h
    exact absurd h (by simp)

theorem drainBuffer_of_shape_fail (decode : List Nat → Option ParsedMessage)
    (s : SourceState) (m : ParsedMessage) (rem : List Nat) (bc : Nat)
    (hp : parse_message decode s.message_buffer = ParseResult.ok (some m) rem bc)
    (hshape : shapeOk m = false) :
    drainBuffer decode s =
      some ({ s with message_buffer := rem, corrupted_messages := s.corrupted_messages + 1 }, []) := by
  rw [drainBuffer.eq_def]
  split
  · rename_i h; rw [hp] at h; exact absurd h (by simp)
  · rename_i rem' bc' h; rw [hp] at h; exact absurd h (by simp)
  · rename_i m' rem' bc' h
    rw [hp] at h
    injection h with e1 e2 e3
    injection e1 with e1
    subst e1 e2 e3
    rw [if_neg (by simp [hshape])]

theorem drainBuffer_of_dispatch (decode : List Nat → Option ParsedMessage)
    (s : SourceState) (m : ParsedMessage) (rem : List Nat) (bc : Nat)
    (s'' : SourceState) (log : List DispatchRecord)
    (hp : parse_message decode s.message_buffer = ParseResult.ok (some m) rem bc)
    (hshape : shapeOk m = true)
    (hrec : drainBuffer decode { message_buffer := rem, bytes_received := s.bytes_received + bc, corrupted_messages := s.corrupted_messages } = some (s'', log)) :
    drainBuffer decode s =
      some (s'', { message := m, data_remaining := decide (0 < rem.length), payload_len := bc } :: log) := by
  rw [drainBuffer.eq_def]
  split
  · rename_i h; rw [hp] at h; exact absurd h (by simp)
  · rename_i rem' bc' h; rw [hp] at h; exact absurd h (by simp)
  · rename_i m' rem' bc' h
    rw [hp] at h
    injection h with e1 e2 e3
    injection e1 with e1
    subst e1 e2 e3
    rw [if_pos hshape, hrec]

theorem drainBuffer_nil (decode : List Nat → Option ParsedMessage) (br cm : Nat) :
    drainBuffer decode { message_buffer := [], bytes_received := br, corrupted_messages := cm } =
      some ({ message_buffer := [], bytes_received := br, corrupted_messages := cm }, []) :=
  drainBuffer_of_ok_none decode _ [] 0 rfl

theorem drainBuffer_invariant (decode : List Nat → Option ParsedMessage) :
    ∀ (s : SourceState) (s' : SourceState) (log : List DispatchRecord),
      drainBuffer decode s = some (s', log) →
      s'.bytes_received = s.bytes_received + (log.map (fun r => r.payload_len)).sum ∧
      s.corrupted_messages ≤ s'.corrupted_messages ∧
      (∀ r ∈ log, shapeOk r.message = true) := by
  intro s
  induction s using drainBuffer.induct decode with
  | case1 s h =>
    intro s' log hd
    rw [drainBuffer.eq_def, h] at hd
    exact absurd hd (by simp)
  | case2 s rem bc h =>
    intro s' log hd
    rw [drainBuffer.eq_def, h] at hd
    simp only [Option.some.injEq, Prod.mk.injEq] at hd
    obtain ⟨hs, hl⟩ := hd
    subst hs hl
    simp
  | case3 s m rem bc h hshape hrec ih =>
    intro s' log hd
    rw [drainBuffer.eq_def, h] at hd
    simp only [if_pos hshape] at hd
    rw [hrec] at hd
    exact absurd hd (by simp)
  | case4 s m rem bc h hshape s'' log' hrec ih =>
    intro s' log hd
    rw [drainBuffer.eq_def, h] at hd
    simp only [if_pos hshape] at hd
    rw [hrec] at hd
    simp only [Option.some.injEq, Prod.mk.injEq] at hd
    obtain ⟨hs, hl⟩ := hd
    subst hs hl
    obtain ⟨ih1, ih2, ih3⟩ := ih _ _ hrec
    refine ⟨?_, ?_, ?_⟩
    · simp [ih1]; omega
    · simpa using ih2
    · intro r hr
      rcases List.mem_cons.mp hr with h1 | h1
      · subst h1; exact hshape
      · exact ih3 r h1
  | case5 s m rem bc h hshape =>
    intro s' log hd
    rw [drainBuffer.eq_def, h] at hd
    simp only [if_neg hshape] at hd
    simp only [Option.some.injEq, Prod.mk.injEq] at hd
    obtain ⟨hs, hl⟩ := hd
    subst hs hl
    simp

theorem runCycles_invariant (decode : List Nat → Option ParsedMessage) :
    ∀ (reads : List (List Nat)) (s s' : SourceState) (log : List DispatchRecord),
      runCycles decode s reads = some (s', log) →
      s'.bytes_received = s.bytes_received + (log.map (fun r => r.payload_len)).sum ∧
      s.corrupted_messages ≤ s'.corrupted_messages ∧
      (∀ r ∈ log, shapeOk r.message = true) := by
  intro reads
  induction reads with
  | nil =>
    intro s s' log h
    simp only [runCycles, Option.some.injEq, Prod.mk.injEq] at h
    obtain ⟨hs, hl⟩ := h
    subst hs hl
    simp
  | cons r rs ih =>
    intro s s' log h
    simp only [runCycles] at h
    split at h
    · exact absurd h (by simp)
    · rename_i s1 log1 hd1
      split at h
      · exact absurd h (by simp)
      · rename_i s2 log2 hr2
        simp only [Option.some.injEq, Prod.mk.injEq] at h
        obtain ⟨hs, hl⟩ := h
        subst hs hl
        obtain ⟨d1, d2, d3⟩ := drainBuffer_invariant decode _ _ _ hd1
        obtain ⟨c1, c2, c3⟩ := ih _ _ _ hr2
        refine ⟨?_, ?_, ?_⟩
        · simp only [List.map_append, List.sum_append]
          simp only [d1] at c1
          have hb : ({ s with message_buffer := s.message_buffer ++ r } : SourceState).bytes_received = s.bytes_received := rfl
          rw [hb] at c1
          omega
        · exact le_trans (by simpa using d2) c2
        · intro x hx
          rcases List.mem_append.mp hx with h1 | h1
          · exact d3 x h1
          · exact c3 x h1

theorem drainBuffer_of_exc (decode : List Nat → Option ParsedMessage) (s : SourceState)
    (hp : parse_message decode s.message_buffer = ParseResult.exc) :
    drainBuffer decode s = none := by
  rw [drainBuffer.eq_def]
  split
  · rfl
  · rename_i rem bc h; rw [hp] at h; exact absurd h (by simp)
  · rename_i m rem bc h; rw [hp] at h; exact absurd h (by simp)

theorem runCycles_single (decode : List Nat → Option ParsedMessage) (b0 r : List Nat)
    (br cm : Nat) (s' : SourceState) (log : List DispatchRecord)
    (h : drainBuffer decode { message_buffer := b0 ++ r, bytes_received := br, corrupted_messages := cm } = some (s', log)) :
    runCycles decode { message_buffer := b0, bytes_received := br, corrupted_messages := cm } [r] = some (s', log) := by
  simp only [runCycles, h, List.append_nil]

theorem drainBuffer_nv_example :
    drainBuffer decodeNV { message_buffer := [0, 2, 9, 9], bytes_received := 0, corrupted_messages := 0 } =
      some ({ message_buffer := [], bytes_received := 2, corrupted_messages := 0 },
        [{ message := nvMessage, data_remaining := false, payload_len := 2 }]) :=
  drainBuffer_of_dispatch decodeNV _ nvMessage [] 2 _ [] (by decide) (by decide)
    (drainBuffer_nil decodeNV (0 + 2) 0)

theorem runCycles_nv_example :
    runCycles decodeNV initialState [[0, 2, 9, 9]] =
      some ({ message_buffer := [], bytes_received := 2, corrupted_messages := 0 },
        [{ message := nvMessage, data_remaining := false, payload_len := 2 }]) :=
  runCycles_single decodeNV [] [0, 2, 9, 9] 0 0 _ _ drainBuffer_nv_example

/-- Claim C1 (refuted at a concrete input): the claim says that when the
sentinel and varint are present but fewer than the declared payload-length
bytes follow, `_parse_message` returns no message and leaves the buffer
byte-for-byte identical.  On `[0, 5, 1, 2]` (sentinel, varint length 5,
only 2 payload bytes) the code instead slices out the truncated 2-byte
payload, still feeds it to the decoder, and returns an empty remainder, so
the run loop replaces the buffer with `[]` and the incomplete frame's
bytes are lost; repeated calls are not idempotent. -/
theorem claim1_failing_input :
    extractFrame [0, 5, 1, 2] = ExtractResult.frame [1, 2] [] ∧
    parse_message decodeNone [0, 5, 1, 2] = ParseResult.ok none [] 2 :=
  ⟨by decide, by decide⟩

/-- Claim C2 (refuted at a concrete input): the claim says that a buffer
ending in the middle of the varint is handled without exception and
without mutation.  On `[0, 0x80]` (sentinel then one continuation byte)
`_DecodeVarint` indexes past the end of the buffer and raises
`IndexError`, which `_parse_message` does not catch (modelled as
`ParseResult.exc`), and the exception kills the `run` loop (modelled as
`drainBuffer = none`). -/
theorem claim2_failing_input :
    parse_message decodeNone [0, 128] = ParseResult.exc ∧
    drainBuffer decodeNone { message_buffer := [0, 128], bytes_received := 0, corrupted_messages := 0 } = none :=
  ⟨by decide, drainBuffer_of_exc decodeNone _ (by decide)⟩

/-- Claim C3, counterexample: the claim says a payload of length greater
than 1 that fails to deserialize increments `corrupted_messages` by
exactly 1.  With buffer `[0, 2, 1, 2]` (a complete frame with 2-byte
payload `[1, 2]`, which `ParseFromString` rejects — modelled by
`decodeNone`) the run loop leaves `corrupted_messages` at 0: on a `None`
message it simply breaks without touching the counter. -/
theorem claim3_counterexample :
    ¬ ∃ (s' : SourceState) (log : List DispatchRecord),
        drainBuffer decodeNone { message_buffer := [0, 2, 1, 2], bytes_received := 0, corrupted_messages := 0 } = some (s', log) ∧
        s'.corrupted_messages = 1 := by
  rintro ⟨s', log, hd, hc⟩
  rw [drainBuffer_of_ok_none decodeNone _ [] 2 (by decide)] at hd
  simp only [Option.some.injEq, Prod.mk.injEq] at hd
  obtain ⟨hs, -⟩ := hd
  subst hs
  exact absurd hc (by decide)

/-- Claim C3 as amended: for every extracted payload of length greater
than 1 whose bytes fail to deserialize, `corrupted_messages` is unchanged
(not incremented), the consumer callback is not invoked for that frame,
and `bytes_received` is unchanged; the frame is dropped and the inner
loop stops for this cycle. -/
theorem claim3_amended_decode_failure (decode : List Nat → Option ParsedMessage)
    (s : SourceState) (md rem : List Nat)
    (hext : extractFrame s.message_buffer = ExtractResult.frame md rem)
    (hlen : 1 < md.length) (hdec : decode md = none) :
    drainBuffer decode s = some ({ s with message_buffer := rem }, []) :=
  drainBuffer_of_ok_none decode s rem md.length
    (parse_message_frame_decode_none decode _ md rem hext hlen hdec)

theorem claim3_amended_witness :
    extractFrame [0, 2, 1, 2] = ExtractResult.frame [1, 2] [] ∧
    decodeNone [1, 2] = none ∧
    drainBuffer decodeNone { message_buffer := [0, 2, 1, 2], bytes_received := 3, corrupted_messages := 4 } =
      some ({ message_buffer := [], bytes_received := 3, corrupted_messages := 4 }, []) :=
  ⟨by decide, rfl,
    claim3_amended_decode_failure decodeNone _ [1, 2] [] (by decide) (by decide) rfl⟩

/-- Claim C4: for every buffer whose head is the sentinel byte followed by
a complete varint encoding length `L` (occupying exactly the bytes `v`)
and at least `L` further payload bytes, extraction removes exactly
`1 + v.length + L` bytes from the front (the remainder is exactly `rest`),
returns the `L` payload bytes unchanged, and `_parse_message` reports `L`
as the byte count, whatever the payload decoder does. -/
theorem claim4_complete_frame (v payload rest : List Nat) (L : Nat)
    (hdec : decodeVarint (0 :: (v ++ (payload ++ rest))) 1 = some (L, 1 + v.length))
    (hL : payload.length = L) :
    extractFrame (0 :: (v ++ (payload ++ rest))) = ExtractResult.frame payload rest ∧
    ∀ decode : List Nat → Option ParsedMessage, ∃ om,
      parse_message decode (0 :: (v ++ (payload ++ rest))) = ParseResult.ok om rest L := by
  have hbuflen : 1 < (0 :: (v ++ (payload ++ rest))).length :=
    decodeVarint_pos_lt _ 1 L (1 + v.length) hdec
  have hfz : findZero (0 :: (v ++ (payload ++ rest))) = some 0 := rfl
  have hdrop1 : (0 :: (v ++ (payload ++ rest))).drop (1 + v.length) = payload ++ rest := by
    rw [Nat.add_comm, List.drop_succ_cons]
    exact List.drop_left v (payload ++ rest)
  have hdrop2 : (0 :: (v ++ (payload ++ rest))).drop (1 + v.length + L) = rest := by
    have hb : 0 :: (v ++ (payload ++ rest)) = ((0 :: v) ++ payload) ++ rest := by simp
    have hlen2 : ((0 :: v) ++ payload).length = 1 + v.length + L := by
      simp [hL]
      omega
    rw [hb, ← hlen2]
    exact List.drop_left _ rest
  have hext : extractFrame (0 :: (v ++ (payload ++ rest))) =
      ExtractResult.frame payload rest := by
    rw [extractFrame_eq_frame _ 0 L (1 + v.length) hfz (by simpa using hbuflen) hdec]
    rw [hdrop1, hdrop2, ← hL, List.take_left]
  refine ⟨hext, fun decode => ?_⟩
  by_cases hlen : 1 < payload.length
  · cases hd : decode payload with
    | none =>
      exact ⟨none, by rw [parse_message_frame_decode_none decode _ payload rest hext hlen hd, hL]⟩
    | some m =>
      exact ⟨some m, by rw [parse_message_frame_decode_some decode _ payload rest m hext hlen hd, hL]⟩
  · exact ⟨none, by rw [parse_message_frame_le_one decode _ payload rest hext (by omega), hL]⟩

theorem claim4_witness :
    decodeVarint (0 :: ([2] ++ ([7, 8] ++ [9]))) 1 = some (2, 1 + [2].length) ∧
    ([7, 8] : List Nat).length = 2 ∧
    extractFrame (0 :: ([2] ++ ([7, 8] ++ [9]))) = ExtractResult.frame [7, 8] [9] :=
  ⟨by decide, by decide,
    (claim4_complete_frame [2] [7, 8] [9] 2 (by decide) (by decide)).1⟩

/-- Claim C5: the consumer callback is only ever invoked with a decoded
message whose key set passes the shape check (name and value, or id and
data); and whenever a decoded message fails the shape check, it is
dropped with `corrupted_messages` incremented by 1 and no callback
invocation for this cycle.  No error value is ever passed to the
callback: the dispatch log carries only shape-valid messages. -/
theorem claim5_shape_validation (decode : List Nat → Option ParsedMessage)
    (s s' : SourceState) (log : List DispatchRecord)
    (h : drainBuffer decode s = some (s', log)) :
    (∀ r ∈ log, shapeOk r.message = true) ∧
    (∀ (md rem : List Nat) (m : ParsedMessage),
      extractFrame s.message_buffer = ExtractResult.frame md rem → 1 < md.length →
      decode md = some m → shapeOk m = false →
      s'.corrupted_messages = s.corrupted_messages + 1 ∧ log = []) := by
  refine ⟨(drainBuffer_invariant decode s s' log h).2.2, ?_⟩
  intro md rem m hext hlen hdec hshape
  have hp := parse_message_frame_decode_some decode _ md rem m hext hlen hdec
  have hd := drainBuffer_of_shape_fail decode s m rem md.length hp hshape
  rw [h] at hd
  simp only [Option.some.injEq, Prod.mk.injEq] at hd
  obtain ⟨hs, hl⟩ := hd
  subst hs
  exact ⟨rfl, hl⟩

theorem claim5_witness : shapeOk nvMessage = true := by
  have h := (claim5_shape_validation decodeNV _ _ _ drainBuffer_nv_example).1
  simpa using h { message := nvMessage, data_remaining := false, payload_len := 2 } (by simp)

/-- Claim C6: starting from the constructed state, after any number of
read cycles the `bytes_received` counter equals the sum of the payload
lengths of the dispatched (accepted) frames; sentinel and varint-prefix
bytes are not counted, because `_parse_message` reports
`len(message_data)` only. -/
theorem claim6_bytes_received_sum (decode : List Nat → Option ParsedMessage)
    (reads : List (List Nat)) (s' : SourceState) (log : List DispatchRecord)
    (h : runCycles decode initialState reads = some (s', log)) :
    s'.bytes_received = (log.map (fun r => r.payload_len)).sum := by
  have h1 := (runCycles_invariant decode reads initialState s' log h).1
  simpa [initialState] using h1

theorem claim6_witness :
    runCycles decodeNV initialState [[0, 2, 9, 9]] =
      some ({ message_buffer := [], bytes_received := 2, corrupted_messages := 0 },
        [{ message := nvMessage, data_remaining := false, payload_len := 2 }]) ∧
    ({ message_buffer := [], bytes_received := 2, corrupted_messages := 0 } : SourceState).bytes_received = 2 := by
  have h := claim6_bytes_received_sum decodeNV [[0, 2, 9, 9]] _ _ runCycles_nv_example
  exact ⟨runCycles_nv_example, h.trans (by decide)⟩

/-- Claim C7: when a single read appends two complete, valid,
shape-passing frames to an empty buffer, the callback is invoked exactly
twice, in arrival order, with `data_remaining = true` on the first
invocation (the second frame's bytes are still buffered) and
`data_remaining = false` on the second. -/
theorem claim7_two_frames (decode : List Nat → Option ParsedMessage) (br cm : Nat)
    (f1 p1 f2 p2 : List Nat) (m1 m2 : ParsedMessage)
    (hext1 : extractFrame (f1 ++ f2) = ExtractResult.frame p1 f2)
    (hext2 : extractFrame f2 = ExtractResult.frame p2 [])
    (hlen1 : 1 < p1.length) (hlen2 : 1 < p2.length)
    (hdec1 : decode p1 = some m1) (hdec2 : decode p2 = some m2)
    (hs1 : shapeOk m1 = true) (hs2 : shapeOk m2 = true) :
    runCycles decode { message_buffer := [], bytes_received := br, corrupted_messages := cm } [f1 ++ f2] =
      some ({ message_buffer := [], bytes_received := br + p1.length + p2.length, corrupted_messages := cm },
        [{ message := m1, data_remaining := true, payload_len := p1.length },
         { message := m2, data_remaining := false, payload_len := p2.length }]) := by
  have hp2 : parse_message decode f2 = ParseResult.ok (some m2) [] p2.length :=
    parse_message_frame_decode_some decode f2 p2 [] m2 hext2 hlen2 hdec2
  have h2 : drainBuffer decode { message_buffer := f2, bytes_received := br + p1.length, corrupted_messages := cm } =
      some ({ message_buffer := [], bytes_received := br + p1.length + p2.length, corrupted_messages := cm },
        [{ message := m2, data_remaining := false, payload_len := p2.length }]) :=
    drainBuffer_of_dispatch decode _ m2 [] p2.length _ [] hp2 hs2
      (drainBuffer_nil decode (br + p1.length + p2.length) cm)
  have hp1 : parse_message decode (f1 ++ f2) = ParseResult.ok (some m1) f2 p1.length :=
    parse_message_frame_decode_some decode _ p1 f2 m1 hext1 hlen1 hdec1
  have hf2pos : 0 < f2.length := by
    have := extractFrame_frame_length_lt f2 p2 [] hext2 hlen2
    simpa using this
  have h1 : drainBuffer decode { message_buffer := f1 ++ f2, bytes_received := br, corrupted_messages := cm } =
      some ({ message_buffer := [], bytes_received := br + p1.length + p2.length, corrupted_messages := cm },
        [{ message := m1, data_remaining := decide (0 < f2.length), payload_len := p1.length },
         { message := m2, data_remaining := false, payload_len := p2.length }]) :=
    drainBuffer_of_dispatch decode _ m1 f2 p1.length _ _ hp1 hs1 h2
  have hfin := runCycles_single decode [] (f1 ++ f2) br cm _ _ h1
  simpa only [decide_eq_true hf2pos] using hfin

theorem claim7_witness :
    runCycles decodeNV { message_buffer := [], bytes_received := 0, corrupted_messages := 0 }
        [[0, 2, 9, 9] ++ [0, 2, 8, 8]] =
      some ({ message_buffer := [], bytes_received := 0 + 2 + 2, corrupted_messages := 0 },
        [{ message := nvMessage, data_remaining := true, payload_len := 2 },
         { message := nvMessage, data_remaining := false, payload_len := 2 }]) := by
  have h := claim7_two_frames decodeNV 0 0 [0, 2, 9, 9] [9, 9] [0, 2, 8, 8] [8, 8]
    nvMessage nvMessage (by decide) (by decide) (by decide) (by decide) rfl rfl
    (by decide) (by decide)
  simpa using h

/-- Claim C8: for every complete frame whose payload length is at most 1,
extraction consumes the frame (the buffer advances to the remainder) but
the payload is never decoded (the result holds for every decoder), the
callback is not invoked, and neither `corrupted_messages` nor
`bytes_received` changes. -/
theorem claim8_noop_frame (decode : List Nat → Option ParsedMessage)
    (s : SourceState) (md rem : List Nat)
    (hext : extractFrame s.message_buffer = ExtractResult.frame md rem)
    (hlen : md.length ≤ 1) :
    drainBuffer decode s = some ({ s with message_buffer := rem }, []) :=
  drainBuffer_of_ok_none decode s rem md.length
    (parse_message_frame_le_one decode _ md rem hext hlen)

theorem claim8_witness :
    extractFrame [0, 1, 7, 0, 2, 9, 9] = ExtractResult.frame [7] [0, 2, 9, 9] ∧
    drainBuffer decodeNV { message_buffer := [0, 1, 7, 0, 2, 9, 9], bytes_received := 5, corrupted_messages := 6 } =
      some ({ message_buffer := [0, 2, 9, 9], bytes_received := 5, corrupted_messages := 6 }, []) :=
  ⟨by decide, claim8_noop_frame decodeNV _ [7] [0, 2, 9, 9] (by decide) (by decide)⟩

/-- Claim C9: both counters are 0 after construction, and across any run
of the ingestion loop neither `bytes_received` nor `corrupted_messages`
ever decreases. -/
theorem claim9_counters_monotone :
    (initialState.bytes_received = 0 ∧ initialState.corrupted_messages = 0) ∧
    ∀ (decode : List Nat → Option ParsedMessage) (s : SourceState)
      (reads : List (List Nat)) (s' : SourceState) (log : List DispatchRecord),
      runCycles decode s reads = some (s', log) →
      s.bytes_received ≤ s'.bytes_received ∧ s.corrupted_messages ≤ s'.corrupted_messages := by
  refine ⟨⟨rfl, rfl⟩, ?_⟩
  intro decode s reads s' log h
  obtain ⟨h1, h2, -⟩ := runCycles_invariant decode reads s s' log h
  exact ⟨by omega, h2⟩

theorem claim9_witness :
    runCycles decodeNV initialState [[0, 2, 9, 9]] =
      some ({ message_buffer := [], bytes_received := 2, corrupted_messages := 0 },
        [{ message := nvMessage, data_remaining := false, payload_len := 2 }]) ∧
    initialState.bytes_received ≤ 2 ∧ initialState.corrupted_messages ≤ 0 := by
  have h := claim9_counters_monotone.2 decodeNV initialState [[0, 2, 9, 9]] _ _ runCycles_nv_example
  exact ⟨runCycles_nv_example, h.1, h.2⟩

/-- Claim C10: in each of the three no-dispatch outcomes of an extraction
(no-op frame with payload length at most 1; payload of length greater
than 1 failing to decode; decoded message failing the shape check) the
inner extraction loop stops for this read cycle: the drain ends
immediately with the buffer advanced only past the offending frame, so
complete frames still sitting in the remainder are not extracted or
dispatched until after the next read. -/
theorem claim10_stop_on_no_dispatch (decode : List Nat → Option ParsedMessage)
    (s : SourceState) (md rem : List Nat)
    (hext : extractFrame s.message_buffer = ExtractResult.frame md rem) :
    (md.length ≤ 1 → drainBuffer decode s = some ({ s with message_buffer := rem }, [])) ∧
    (1 < md.length → decode md = none →
      drainBuffer decode s = some ({ s with message_buffer := rem }, [])) ∧
    (∀ m, 1 < md.length → decode md = some m → shapeOk m = false →
      drainBuffer decode s =
        some ({ s with message_buffer := rem, corrupted_messages := s.corrupted_messages + 1 }, [])) := by
  refine ⟨fun hlen => ?_, fun hlen hdec => ?_, fun m hlen hdec hshape => ?_⟩
  · exact drainBuffer_of_ok_none decode s rem md.length
      (parse_message_frame_le_one decode _ md rem hext hlen)
  · exact drainBuffer_of_ok_none decode s rem md.length
      (parse_message_frame_decode_none decode _ md rem hext hlen hdec)
  · exact drainBuffer_of_shape_fail decode s m rem md.length
      (parse_message_frame_decode_some decode _ md rem m hext hlen hdec) hshape

theorem claim10_witness :
    drainBuffer decodeNV { message_buffer := [0, 1, 7, 0, 2, 9, 9], bytes_received := 0, corrupted_messages := 0 } =
      some ({ message_buffer := [0, 2, 9, 9], bytes_received := 0, corrupted_messages := 0 }, []) ∧
    drainBuffer decodeNone { message_buffer := [0, 2, 1, 2, 0, 2, 9, 9], bytes_received := 7, corrupted_messages := 8 } =
      some ({ message_buffer := [0, 2, 9, 9], bytes_received := 7, corrupted_messages := 8 }, []) ∧
    drainBuffer decodeNameOnly { message_buffer := [0, 2, 1, 2, 0, 2, 9, 9], bytes_received := 7, corrupted_messages := 8 } =
      some ({ message_buffer := [0, 2, 9, 9], bytes_received := 7, corrupted_messages := 9 }, []) := by
  refine ⟨?_, ?_, ?_⟩
  · exact (claim10_stop_on_no_dispatch decodeNV _ [7] [0, 2, 9, 9] (by decide)).1 (by decide)
  · exact (claim10_stop_on_no_dispatch decodeNone _ [1, 2] [0, 2, 9, 9] (by decide)).2.1
      (by decide) rfl
  · exact (claim10_stop_on_no_dispatch decodeNameOnly _ [1, 2] [0, 2, 9, 9] (by decide)).2.2
      nameOnlyMessage (by decide) rfl (by decide)
